import Mathlib

/-!
Verification of the text-analysis core of CoreLogger
(src/services/nlp_analyzer.py): the NLPAnalyzer keyword/statistics
extractor and the EnhancedThoughtScorer importance scorer.

Texts are modelled as `List Char`.  The ASCII behaviour of Python's
`str.lower`, `str.split()`, `str.split('.')` and of the regex classes
`[a-zA-Z]` and `\w` is embedded explicitly.  Python floats are modelled
as exact rationals, except Shannon entropy and the importance score,
which are real-valued because of `log2`.
-/

/-- ASCII model of Python `str.lower` on one character: upper-case ASCII
letters map to the corresponding lower-case letters, every other
character is unchanged. -/
def lowerChar (c : Char) : Char :=
  match c with
  | 'A' => 'a' | 'B' => 'b' | 'C' => 'c' | 'D' => 'd' | 'E' => 'e'
  | 'F' => 'f' | 'G' => 'g' | 'H' => 'h' | 'I' => 'i' | 'J' => 'j'
  | 'K' => 'k' | 'L' => 'l' | 'M' => 'm' | 'N' => 'n' | 'O' => 'o'
  | 'P' => 'p' | 'Q' => 'q' | 'R' => 'r' | 'S' => 's' | 'T' => 't'
  | 'U' => 'u' | 'V' => 'v' | 'W' => 'w' | 'X' => 'x' | 'Y' => 'y'
  | 'Z' => 'z'
  | c => c

/-- Model of Python `text.lower()` over a text. -/
def lowerStr (l : List Char) : List Char := l.map lowerChar

/-- Characters on which Python `str.split()` with no argument splits
(ASCII whitespace). -/
def isWsChar (c : Char) : Bool :=
  c = ' ' || c = '\t' || c = '\n' || c = '\r' || c = '\x0b' || c = '\x0c'

/-- Helper for `pySplit`; the accumulator holds the pending token reversed. -/
def splitWsAux : List Char → List Char → List String
  | [], acc => if acc.isEmpty then [] else [ String.mk acc.reverse ]
  | c :: cs, acc =>
    if isWsChar c then
      if acc.isEmpty then splitWsAux cs []
      else String.mk acc.reverse :: splitWsAux cs []
    else splitWsAux cs (c :: acc)

/-- Model of Python `text.split()`: split on whitespace runs, dropping
empty pieces. -/
def pySplit (l : List Char) : List String := splitWsAux l []

/-- Model of Python `text.split('.')`: split at every dot, keeping empty
pieces, so the number of pieces is the number of dots plus one. -/
def pySplitDot : List Char → List (List Char)
  | [] => [ [] ]
  | c :: cs =>
    if c = '.' then [] :: pySplitDot cs
    else
      match pySplitDot cs with
      | [] => [ [ c ] ]
      | p :: ps => (c :: p) :: ps

/-- The regex character class `[a-zA-Z]`. -/
def isAlphaChar (c : Char) : Bool :=
  ('a' ≤ c && c ≤ 'z') || ('A' ≤ c && c ≤ 'Z')

/-- The regex word-character class `\w` (ASCII scope): letters, digits
and underscore; `\b` holds exactly between a word and a non-word
position. -/
def isWordChar (c : Char) : Bool :=
  isAlphaChar c || ('0' ≤ c && c ≤ '9') || c = '_'

/-- Scanner for `re.findall` of the pattern the source actually
compiles.  The source concatenates a raw literal with the non-raw
literal `',}\b'`: in a raw Python string `\b` is the regex word
boundary, but in the non-raw trailing literal `\b` is the BACKSPACE
character U+0008.  The compiled pattern is therefore
`\b[a-zA-Z]{minLen,}` followed by a literal backspace: a match (for
`minLen ≥ 1`) is a maximal run of ASCII letters whose left neighbour
(if any) is a non-word character, of length at least `minLen`,
immediately followed by a backspace character, and the matched string
includes that backspace.  (Backtracking cannot shorten the run: every
shorter prefix is followed by a letter, not a backspace.)  `leftOk`
records whether the character just before the current run (if any) was
a non-word character, i.e. the left `\b` condition; `cur` holds the
letters of the current run, reversed. -/
def findRunsAux (minLen : Nat) : List Char → Bool → List Char → List (List Char)
  | [], _, _ => []
  | c :: cs, leftOk, cur =>
    if isAlphaChar c then findRunsAux minLen cs leftOk (c :: cur)
    else
      let keep := leftOk && ! cur.isEmpty && decide (minLen ≤ cur.length) &&
        decide (c = '\x08')
      if keep then (cur.reverse ++ [ c ]) :: findRunsAux minLen cs (! isWordChar c) []
      else findRunsAux minLen cs (! isWordChar c) []

/-- All matches of the source's compiled pattern in `l`, in order. -/
def findRuns (minLen : Nat) (l : List Char) : List (List Char) :=
  findRunsAux minLen l true []

/-- The stop-word set of `NLPAnalyzer.__init__` (src lines 33-41). -/
def stop_words : List String :=
  [ "a", "an", "and", "are", "as", "at", "be", "by", "for", "from",
    "has", "he", "in", "is", "it", "its", "of", "on", "that", "the",
    "to", "was", "will", "with", "i", "you", "we", "they", "this",
    "but", "or", "not", "have", "had", "what", "when", "where", "who",
    "which", "why", "how", "all", "any", "both", "each", "few", "more",
    "most", "other", "some", "such", "no", "nor", "only", "own", "same",
    "so", "than", "too", "very", "can", "could", "should", "would" ]

/-- `NLPAnalyzer.extract_keywords`: words are the `re.findall` matches
of the compiled pattern (see `findRunsAux`: the trailing `\b` of the
source is a literal backspace, so every match carries a trailing
backspace character) in the lower-cased text; stop words are filtered
out (vacuously, since every match ends in a backspace) and the result is
de-duplicated (`list(set(...))`; the order of that Python result is
unspecified, we keep first occurrences). -/
def extract_keywords (text : List Char) (min_length : Nat := 3) : List String :=
  let words := (findRuns min_length (lowerStr text)).map (fun r => String.mk r)
  let keywords := words.filter (fun w => decide (w ∉ stop_words))
  keywords.dedup

/-- `NLPAnalyzer.calculate_keyword_density`: `Counter` over the already
de-duplicated keyword list (iterating the counter visits each distinct
keyword with its count in that list), divided by the whitespace token
count of the raw text. -/
def calculate_keyword_density (text : List Char) : List (String × ℚ) :=
  let keywords := extract_keywords text
  let total_words := (pySplit text).length
  if total_words = 0 then []
  else keywords.dedup.map (fun k => (k, (keywords.count k : ℚ) / total_words))

/-- `NLPAnalyzer.calculate_repetition_score`. -/
def calculate_repetition_score (text : List Char) : ℚ :=
  let words := pySplit (lowerStr text)
  if words.length ≤ 1 then 0
  else
    let unique_words := words.dedup.length
    let total_words := words.length
    min (1 - (unique_words : ℚ) / total_words) 1

/-- `NLPAnalyzer.calculate_entropy`: Shannon entropy of the character
counts of the lower-cased text, with the probability denominator
`len(text)` as in the source. -/
noncomputable def calculate_entropy (text : List Char) : ℝ :=
  if text = [] then 0
  else
    let chars := lowerStr text
    let total_chars : ℕ := text.length
    Finset.sum chars.toFinset (fun c =>
      let probability : ℝ := (chars.count c : ℝ) / total_chars
      if 0 < probability then -(probability * Real.logb 2 probability) else 0)

/-- Separator used by `' '.join` in `extract_ngrams`. -/
def sepSpace : String := " "

/-- `NLPAnalyzer.extract_ngrams`: all contiguous windows of `n`
whitespace tokens of the lower-cased text, joined by single spaces. -/
def extract_ngrams (text : List Char) (n : Nat := 2) : List String :=
  let words := pySplit (lowerStr text)
  if words.length < n then []
  else (List.range (words.length - n + 1)).map
    (fun i => String.intercalate sepSpace ((words.drop i).take n))

/-- `NLPAnalyzer.calculate_novelty_score`. -/
def calculate_novelty_score (current_text : List Char)
    (existing_texts : List (List Char)) (ngram_size : Nat := 3) : ℚ :=
  if existing_texts = [] then 1
  else
    let current_ngrams := (extract_ngrams current_text ngram_size).toFinset
    if current_ngrams = ∅ then 0.5
    else
      let total_overlap : ℚ :=
        (existing_texts.map (fun existing_text =>
          let existing_ngrams := (extract_ngrams existing_text ngram_size).toFinset
          if existing_ngrams = ∅ then 0
          else
            let overlap := (current_ngrams ∩ existing_ngrams).card
            let max_possible := max current_ngrams.card existing_ngrams.card
            if 0 < max_possible then (overlap : ℚ) / max_possible else 0)).sum
      let avg_overlap : ℚ :=
        if existing_texts ≠ [] then total_overlap / existing_texts.length else 0
      let novelty := 1 - min avg_overlap 1
      max 0 novelty

/-- The positive lexicon of `analyze_sentiment_basic` (src lines 148-152). -/
def positive_words : List String :=
  [ "good", "great", "excellent", "amazing", "wonderful", "fantastic",
    "love", "like", "enjoy", "happy", "excited", "pleased", "satisfied",
    "awesome", "brilliant", "perfect", "success", "achievement", "win" ]

/-- The negative lexicon of `analyze_sentiment_basic` (src lines 154-158). -/
def negative_words : List String :=
  [ "bad", "terrible", "awful", "horrible", "hate", "dislike", "sad",
    "angry", "frustrated", "disappointed", "failed", "failure", "wrong",
    "error", "problem", "issue", "difficult", "hard", "struggle" ]

/-- `NLPAnalyzer.analyze_sentiment_basic`. -/
def analyze_sentiment_basic (text : List Char) : String × ℚ :=
  let words := (pySplit (lowerStr text)).toFinset
  let positive_count := (words ∩ positive_words.toFinset).card
  let negative_count := (words ∩ negative_words.toFinset).card
  let total_sentiment_words := positive_count + negative_count
  if total_sentiment_words = 0 then ("neutral", 0.5)
  else
    let sentiment_score : ℚ := positive_count / total_sentiment_words
    if 0.6 < sentiment_score then ("positive", sentiment_score)
    else if sentiment_score < 0.4 then ("negative", 1 - sentiment_score)
    else ("neutral", 0.5)

/-- `NLPAnalyzer.calculate_complexity_score`. -/
def calculate_complexity_score (text : List Char) : ℚ :=
  if text = [] then 0
  else
    let words := pySplit text
    let sentences := pySplitDot text
    let avg_word_length : ℚ :=
      if ¬ words.isEmpty then ((words.map String.length).sum : ℚ) / words.length
      else 0
    let avg_sentence_length : ℚ :=
      if ¬ sentences.isEmpty then (words.length : ℚ) / sentences.length else 0
    let vocab_richness : ℚ :=
      if ¬ words.isEmpty then (words.dedup.length : ℚ) / words.length else 0
    let word_complexity := min (avg_word_length / 10) 1
    let sentence_complexity := min (avg_sentence_length / 20) 1
    let complexity :=
      word_complexity * 0.3 + sentence_complexity * 0.4 + vocab_richness * 0.3
    min complexity 1

/-- `EnhancedThoughtScorer.calculate_enhanced_importance`.  The optional
`existing_content` argument models Python's `Optional[List[str]] = None`;
the source guard `if existing_content:` is true exactly for a present,
non-empty list. -/
noncomputable def calculate_enhanced_importance
    (content : List Char)
    (length_weight : ℝ := 0.2) (complexity_weight : ℝ := 0.25)
    (novelty_weight : ℝ := 0.3) (sentiment_weight : ℝ := 0.15)
    (entropy_weight : ℝ := 0.1)
    (existing_content : Option (List (List Char)) := none) :
    ℝ × List (String × ℝ) :=
  if content = [] then (0, [])
  else
    let length_factor : ℝ := min ((content.length : ℝ) / 500) 1
    let complexity_factor : ℝ := ((calculate_complexity_score content : ℚ) : ℝ)
    let novelty_factor : ℝ :=
      match existing_content with
      | some (e :: es) => ((calculate_novelty_score content (e :: es) 3 : ℚ) : ℝ)
      | _ => 1
    let sentiment_factor : ℝ :=
      if (analyze_sentiment_basic content).1 = "neutral" then 0.3
      else ((analyze_sentiment_basic content).2 : ℝ)
    let entropy_factor : ℝ := min (calculate_entropy content / 5) 1
    let importanceRaw : ℝ :=
      length_factor * length_weight +
      complexity_factor * complexity_weight +
      novelty_factor * novelty_weight +
      sentiment_factor * sentiment_weight +
      entropy_factor * entropy_weight
    let importance : ℝ := max 0 (min importanceRaw 1)
    (importance,
      [ ("length_factor", length_factor),
        ("complexity_factor", complexity_factor),
        ("novelty_factor", novelty_factor),
        ("sentiment_factor", sentiment_factor),
        ("entropy_factor", entropy_factor),
        ("final_importance", importance) ])

/-! Spec-side definitions, written from the wording of the claims, to be
compared with the embedded source functions above. -/

/-- Claim C1's formula for the importance score: clamped weighted sum of
the five factors, with the factor definitions exactly as the claim
states them (novelty defaults to 1 when the reference list is absent or
empty, neutral sentiment contributes 0.3, entropy is normalised by 5). -/
noncomputable def importanceSpecScore (content : List Char)
    (lw cw nw sw ew : ℝ) (reference_texts : Option (List (List Char))) : ℝ :=
  let length_factor : ℝ := min ((content.length : ℝ) / 500) 1
  let complexity_factor : ℝ := ((calculate_complexity_score content : ℚ) : ℝ)
  let novelty_factor : ℝ :=
    match reference_texts with
    | none => 1
    | some refs =>
      if refs = [] then 1
      else ((calculate_novelty_score content refs 3 : ℚ) : ℝ)
  let sentiment_factor : ℝ :=
    if (analyze_sentiment_basic content).1 = "neutral" then 0.3
    else ((analyze_sentiment_basic content).2 : ℝ)
  let entropy_factor : ℝ := min (calculate_entropy content / 5) 1
  max 0 (min (length_factor * lw + complexity_factor * cw + novelty_factor * nw +
    sentiment_factor * sw + entropy_factor * ew) 1)

/-- Claim C8's formula for the complexity score (weights written in
front, no emptiness guards on the inner averages; division by zero is
the rational zero, matching the undefined-average corner the claim does
not reach for word-free text). -/
def complexitySpec (text : List Char) : ℚ :=
  if text = [] then 0
  else
    let words := pySplit text
    let sentences := pySplitDot text
    let awl : ℚ := ((words.map String.length).sum : ℚ) / words.length
    let asl : ℚ := (words.length : ℚ) / sentences.length
    let vr : ℚ := (words.dedup.length : ℚ) / words.length
    min (0.3 * min (awl / 10) 1 + 0.4 * min (asl / 20) 1 + 0.3 * vr) 1

/-- Claim C5's description of the sentiment classifier. -/
def sentimentSpec (text : List Char) : String × ℚ :=
  let tokens := (pySplit (lowerStr text)).toFinset
  let pos := (tokens ∩ positive_words.toFinset).card
  let neg := (tokens ∩ negative_words.toFinset).card
  if pos = 0 ∧ neg = 0 then ("neutral", 0.5)
  else
    let s : ℚ := (pos : ℚ) / (pos + neg)
    if 0.6 < s then ("positive", s)
    else if s < 0.4 then ("negative", 1 - s)
    else ("neutral", 0.5)

/-- Claim C7's entropy formula: minus the sum, over the distinct
characters of the lower-cased text, of p·log2 p with p the character's
relative frequency in that text. -/
noncomputable def entropySpec (text : List Char) : ℝ :=
  let chars := lowerStr text;
  -(Finset.sum chars.toFinset (fun c =>
    ((chars.count c : ℝ) / chars.length) *
      Real.logb 2 ((chars.count c : ℝ) / chars.length)))

/-- Claim C4's novelty formula at n-gram size 3. -/
def noveltySpec (current : List Char) (refs : List (List Char)) : ℚ :=
  if refs = [] then 1
  else
    let cg := (extract_ngrams current 3).toFinset
    if cg = ∅ then 0.5
    else
      let total : ℚ := (refs.map (fun r =>
        let rg := (extract_ngrams r 3).toFinset
        if rg = ∅ then 0
        else ((cg ∩ rg).card : ℚ) / (max cg.card rg.card : ℕ))).sum
      max 0 (1 - min (total / refs.length) 1)


/-! Helper lemmas. -/

theorem pySplitDot_ne_nil (l : List Char) : pySplitDot l ≠ [] := by
  cases l with
  | nil => simp [pySplitDot]
  | cons c cs =>
    simp only [pySplitDot]
    by_cases h : c = '.'
    · simp [h]
    · simp only [if_neg h]
      cases hps : pySplitDot cs <;> simp

theorem isWsChar_lowerChar (c : Char) : isWsChar (lowerChar c) = isWsChar c := by
  unfold lowerChar
  split <;> rfl

theorem splitWsAux_lower_length (l : List Char) : ∀ acc : List Char,
    (splitWsAux (lowerStr l) (lowerStr acc)).length = (splitWsAux l acc).length := by
  induction l with
  | nil =>
    intro acc
    simp only [lowerStr, List.map_nil, splitWsAux]
    cases acc <;> simp [List.isEmpty]
  | cons c cs ih =>
    intro acc
    simp only [lowerStr, List.map_cons, splitWsAux, isWsChar_lowerChar]
    by_cases h : isWsChar c
    · simp only [h, if_true]
      cases acc with
      | nil =>
        simpa [lowerStr] using ih []
      | cons a as =>
        simp only [List.isEmpty, List.map_cons, if_neg, List.length_cons]
        have := ih []
        simp only [lowerStr, List.map_nil] at this
        simp [this]
    · simp only [h, if_false]
      have := ih (c :: acc)
      simpa [lowerStr] using this

theorem pySplit_lowerStr_length (l : List Char) :
    (pySplit (lowerStr l)).length = (pySplit l).length := by
  have := splitWsAux_lower_length l []
  simpa [pySplit, lowerStr] using this

/-! Claim C9: determinism of the importance scorer. -/

/-- C9: the importance scorer is a pure function of its arguments: two
invocations of `calculate_enhanced_importance` with identical content,
weights and reference window return identical score and metrics. -/
theorem calculate_enhanced_importance_deterministic
    (c₁ c₂ : List Char) (lw₁ lw₂ cw₁ cw₂ nw₁ nw₂ sw₁ sw₂ ew₁ ew₂ : ℝ)
    (r₁ r₂ : Option (List (List Char)))
    (hc : c₁ = c₂) (hlw : lw₁ = lw₂) (hcw : cw₁ = cw₂) (hnw : nw₁ = nw₂)
    (hsw : sw₁ = sw₂) (hew : ew₁ = ew₂) (hr : r₁ = r₂) :
    calculate_enhanced_importance c₁ lw₁ cw₁ nw₁ sw₁ ew₁ r₁ =
      calculate_enhanced_importance c₂ lw₂ cw₂ nw₂ sw₂ ew₂ r₂ := by
  subst hc; subst hlw; subst hcw; subst hnw; subst hsw; subst hew; subst hr
  rfl

/-- Witness for C9 at concrete arguments. -/
theorem calculate_enhanced_importance_deterministic_witness :
    calculate_enhanced_importance ("hi there".data) 0.2 0.25 0.3 0.15 0.1 none =
      calculate_enhanced_importance ("hi there".data) 0.2 0.25 0.3 0.15 0.1 none :=
  calculate_enhanced_importance_deterministic _ _ _ _ _ _ _ _ _ _ _ _ _ _
    rfl rfl rfl rfl rfl rfl rfl

/-! Claim C1: the importance formula. -/

/-- C1: `calculate_enhanced_importance` returns `(0, {})` on empty
content, and otherwise its score is the clamped weighted sum of the five
claimed factors, for every weight assignment and every (possibly absent)
reference list. -/
theorem calculate_enhanced_importance_formula (content : List Char)
    (lw cw nw sw ew : ℝ) (refs : Option (List (List Char))) :
    calculate_enhanced_importance [] lw cw nw sw ew refs = (0, []) ∧
    (calculate_enhanced_importance content lw cw nw sw ew refs).1 =
      (if content = [] then 0
       else importanceSpecScore content lw cw nw sw ew refs) := by
  refine ⟨rfl, ?_⟩
  by_cases h : content = []
  · simp [calculate_enhanced_importance, h]
  · simp only [calculate_enhanced_importance, importanceSpecScore, if_neg h]
    rcases refs with _ | l
    · rfl
    · cases l <;> rfl

/-! Claim C10: shape of the metrics mapping. -/

/-- C10: for non-empty content the metrics mapping has exactly the six
claimed keys in order, and the value stored under `final_importance` is
the returned importance score. -/
theorem calculate_enhanced_importance_metrics_shape (content : List Char)
    (lw cw nw sw ew : ℝ) (refs : Option (List (List Char)))
    (h : content ≠ []) :
    ((calculate_enhanced_importance content lw cw nw sw ew refs).2.map Prod.fst =
      [ "length_factor", "complexity_factor", "novelty_factor",
        "sentiment_factor", "entropy_factor", "final_importance" ]) ∧
    (calculate_enhanced_importance content lw cw nw sw ew refs).2.getLast? =
      some ("final_importance",
        (calculate_enhanced_importance content lw cw nw sw ew refs).1) := by
  constructor <;> simp [calculate_enhanced_importance, h]

/-- Witness for C10 at concrete arguments. -/
theorem calculate_enhanced_importance_metrics_shape_witness :
    ((calculate_enhanced_importance ("hi there".data) 0.2 0.25 0.3 0.15 0.1
        none).2.map Prod.fst =
      [ "length_factor", "complexity_factor", "novelty_factor",
        "sentiment_factor", "entropy_factor", "final_importance" ]) ∧
    (calculate_enhanced_importance ("hi there".data) 0.2 0.25 0.3 0.15 0.1
        none).2.getLast? =
      some ("final_importance",
        (calculate_enhanced_importance ("hi there".data) 0.2 0.25 0.3 0.15 0.1
          none).1) :=
  calculate_enhanced_importance_metrics_shape ("hi there".data)
    0.2 0.25 0.3 0.15 0.1 none (by decide)

/-! Claim C8: the complexity formula. -/

/-- C8: `calculate_complexity_score` computes the claimed weighted sum
0.3·word-length factor + 0.4·sentence-length factor + 0.3·vocabulary
richness, capped at 1, and returns 0 on the empty string. -/
theorem calculate_complexity_score_spec (text : List Char) :
    calculate_complexity_score text = complexitySpec text ∧
    calculate_complexity_score [] = 0 := by
  refine ⟨?_, rfl⟩
  unfold calculate_complexity_score complexitySpec
  by_cases h : text = []
  · simp [h]
  · simp only [if_neg h]
    have hs : (pySplitDot text).isEmpty = false := by
      simpa [List.isEmpty_iff] using pySplitDot_ne_nil text
    by_cases hw : (pySplit text).isEmpty
    · have hw' : pySplit text = [] := List.isEmpty_iff.mp hw
      simp [hw, hw', hs]
    · have hw2 : (pySplit text).isEmpty = false := by
        simpa using hw
      simp only [hw2, hs, Bool.false_eq_true, not_false_iff, if_true]
      congr 1
      ring

/-! Claim C5: the sentiment classifier. -/

/-- C5: `analyze_sentiment_basic` implements the claimed classification
rule, and on the two quoted sentences returns a positive label with
strength above 0.6, respectively exactly `(neutral, 0.5)`. -/
theorem analyze_sentiment_basic_spec :
    (∀ text : List Char, analyze_sentiment_basic text = sentimentSpec text) ∧
    ((analyze_sentiment_basic
        ("I love this, it is great and wonderful".data)).1 = "positive" ∧
      (0.6 : ℚ) < (analyze_sentiment_basic
        ("I love this, it is great and wonderful".data)).2) ∧
    analyze_sentiment_basic
        ("I am not sure why this keeps failing, can someone help me understand the error?".data) =
      ("neutral", 0.5) := by
  refine ⟨?_, ?_, ?_⟩
  · intro text
    by_cases hp :
        ((pySplit (lowerStr text)).toFinset ∩ positive_words.toFinset).card = 0 <;>
      by_cases hn :
        ((pySplit (lowerStr text)).toFinset ∩ negative_words.toFinset).card = 0 <;>
      simp [analyze_sentiment_basic, sentimentSpec, hp, hn, Nat.add_eq_zero]
  · have hp : ((pySplit (lowerStr
        ("I love this, it is great and wonderful".data))).toFinset ∩
        positive_words.toFinset).card = 3 := by decide
    have hn : ((pySplit (lowerStr
        ("I love this, it is great and wonderful".data))).toFinset ∩
        negative_words.toFinset).card = 0 := by decide
    constructor <;> · simp only [analyze_sentiment_basic, hp, hn]; norm_num
  · have hp : ((pySplit (lowerStr
        ("I am not sure why this keeps failing, can someone help me understand the error?".data))).toFinset ∩
        positive_words.toFinset).card = 0 := by decide
    have hn : ((pySplit (lowerStr
        ("I am not sure why this keeps failing, can someone help me understand the error?".data))).toFinset ∩
        negative_words.toFinset).card = 0 := by decide
    simp only [analyze_sentiment_basic, hp, hn]
    norm_num

/-! Claim C7: Shannon entropy. -/

/-- C7: `calculate_entropy` is the claimed Shannon-entropy formula over
the distinct characters of the lower-cased text, with the quoted
concrete values: 0 on the empty string, 0 on a single-symbol text, and
a strictly positive value on a two-symbol text. -/
theorem calculate_entropy_spec :
    (∀ text : List Char, calculate_entropy text = entropySpec text) ∧
    calculate_entropy [] = 0 ∧
    calculate_entropy ("aaaa".data) = 0 ∧
    0 < calculate_entropy ("ab".data) := by
  refine ⟨?_, ?_, ?_, ?_⟩
  · intro text
    by_cases h : text = []
    · simp [h, calculate_entropy, entropySpec, lowerStr]
    · simp only [calculate_entropy, entropySpec, if_neg h]
      rw [← Finset.sum_neg_distrib]
      refine Finset.sum_congr rfl (fun c hc => ?_)
      have hmem : c ∈ lowerStr text := List.mem_toFinset.mp hc
      have hcount : 0 < List.count c (lowerStr text) := List.count_pos_iff.mpr hmem
      have hlen : (lowerStr text).length = text.length := List.length_map _ _
      have hlenpos : 0 < text.length := List.length_pos.mpr h
      have hprob : (0 : ℝ) < (List.count c (lowerStr text) : ℝ) / (text.length : ℝ) := by
        apply div_pos
        · exact_mod_cast hcount
        · exact_mod_cast hlenpos
      rw [hlen]
      simp only [if_pos hprob]
  · rfl
  · have hne : ("aaaa".data : List Char) ≠ [] := by decide
    have hf : (lowerStr ("aaaa".data)).toFinset = {'a'} := by decide
    have hc : List.count 'a' (lowerStr ("aaaa".data)) = 4 := by decide
    have hl : ("aaaa".data : List Char).length = 4 := by decide
    simp only [calculate_entropy, if_neg hne, hf, Finset.sum_singleton, hc, hl]
    norm_num [Real.logb_one]
  · have hne : ("ab".data : List Char) ≠ [] := by decide
    have hf : (lowerStr ("ab".data)).toFinset = {'a', 'b'} := by decide
    have hl : ("ab".data : List Char).length = 2 := by decide
    simp only [calculate_entropy, if_neg hne, hf, hl]
    apply Finset.sum_pos
    · intro c hcmem
      have hcount : List.count c (lowerStr ("ab".data)) = 1 := by
        rcases Finset.mem_insert.mp hcmem with h1 | h1
        · subst h1; decide
        · have h1 : c = 'b' := Finset.mem_singleton.mp h1
          subst h1; decide
      rw [hcount]
      have hprob : (0 : ℝ) < (1 : ℝ) / (2 : ℝ) := by norm_num
      have hlt : ((1 : ℕ) : ℝ) / ((2 : ℕ) : ℝ) = (1 : ℝ) / 2 := by norm_num
      simp only [hlt]
      rw [if_pos hprob]
      have hlogneg : Real.logb 2 ((1 : ℝ) / 2) < 0 :=
        Real.logb_neg one_lt_two (by norm_num) (by norm_num)
      have : (1 : ℝ) / 2 * Real.logb 2 ((1 : ℝ) / 2) < 0 :=
        mul_neg_of_pos_of_neg (by norm_num) hlogneg
      linarith
    · exact ⟨'a', Finset.mem_insert_self _ _⟩

/-! Claim C4: the novelty score. -/

/-- C4: `calculate_novelty_score` at n-gram size 3 matches the claimed
formula, returns 1 on an empty reference list, and returns 0 when the
current text (with at least three whitespace tokens) is compared against
itself. -/
theorem calculate_novelty_score_spec :
    (∀ (cur : List Char) (refs : List (List Char)),
      calculate_novelty_score cur refs 3 = noveltySpec cur refs) ∧
    (∀ x : List Char, calculate_novelty_score x [] 3 = 1) ∧
    (∀ x : List Char, 3 ≤ (pySplit x).length →
      calculate_novelty_score x [x] 3 = 0) := by
  refine ⟨?_, ?_, ?_⟩
  · intro cur refs
    unfold calculate_novelty_score noveltySpec
    by_cases h : refs = []
    · simp [h]
    · simp only [if_neg h, ne_eq, h, not_false_iff, if_true]
      by_cases hc : (extract_ngrams cur 3).toFinset = ∅
      · simp [hc]
      · simp only [hc, if_false]
        have hpos : 0 < (extract_ngrams cur 3).toFinset.card :=
          Finset.card_pos.mpr (Finset.nonempty_iff_ne_empty.mpr hc)
        have hmap : refs.map (fun existing_text =>
            let existing_ngrams := (extract_ngrams existing_text 3).toFinset
            if existing_ngrams = ∅ then 0
            else
              let overlap :=
                ((extract_ngrams cur 3).toFinset ∩ existing_ngrams).card
              let max_possible :=
                max (extract_ngrams cur 3).toFinset.card existing_ngrams.card
              if 0 < max_possible then (overlap : ℚ) / max_possible else 0) =
          refs.map (fun r =>
            let rg := (extract_ngrams r 3).toFinset
            if rg = ∅ then 0
            else (((extract_ngrams cur 3).toFinset ∩ rg).card : ℚ) /
              (max (extract_ngrams cur 3).toFinset.card rg.card : ℕ)) := by
          refine List.map_congr_left (fun r hr => ?_)
          by_cases hrg : (extract_ngrams r 3).toFinset = ∅
          · simp [hrg]
          · have hmaxpos : 0 < max (extract_ngrams cur 3).toFinset.card
                (extract_ngrams r 3).toFinset.card :=
              lt_of_lt_of_le hpos (le_max_left _ _)
            simp [hrg, hmaxpos]
        rw [hmap]
  · intro x
    simp [calculate_novelty_score]
  · intro x hx
    have hlen : 3 ≤ (pySplit (lowerStr x)).length := by
      rw [pySplit_lowerStr_length]; exact hx
    have hng : extract_ngrams x 3 ≠ [] := by
      unfold extract_ngrams
      have hnlt : ¬ ((pySplit (lowerStr x)).length < 3) := by omega
      simp only [hnlt, if_false]
      simp only [ne_eq, List.map_eq_nil_iff, List.range_eq_nil]
      omega
    have hcf : (extract_ngrams x 3).toFinset ≠ ∅ := by
      rw [ne_eq, List.toFinset_eq_empty_iff]
      exact hng
    have hcardpos : 0 < (extract_ngrams x 3).toFinset.card :=
      Finset.card_pos.mpr (Finset.nonempty_iff_ne_empty.mpr hcf)
    unfold calculate_novelty_score
    have hxne : ([x] : List (List Char)) ≠ [] := by simp
    simp only [if_neg hxne, hcf, if_false, List.map_cons, List.map_nil,
      Finset.inter_self, max_self, List.sum_cons, List.sum_nil, ne_eq,
      hxne, not_false_iff, if_true, List.length_cons, List.length_nil]
    rw [if_pos hcardpos]
    have hcne : ((extract_ngrams x 3).toFinset.card : ℚ) ≠ 0 := by
      exact_mod_cast Nat.pos_iff_ne_zero.mp hcardpos
    rw [div_self hcne]
    norm_num

/-! Claim C3: keyword density at a repeated keyword. -/

/-- C3: evaluation of `calculate_keyword_density` at the failing input
"cat\x08 cat\x08" (the backspaces make the source regex match, so the
keyword list is non-empty): the single extracted keyword "cat\x08"
occurs twice among the two whitespace tokens, so the claimed
occurrences/total formula requires density 1, yet the reported density
is 1/2, because the source applies `Counter` to the already
de-duplicated keyword list, so every keyword gets count 1. -/
theorem calculate_keyword_density_bug :
    calculate_keyword_density ("cat\x08 cat\x08".data) =
      [ ("cat\x08", (1 : ℚ) / 2) ] := by
  have hk : extract_keywords ("cat\x08 cat\x08".data) = [ "cat\x08" ] := by
    decide
  have ht : (pySplit ("cat\x08 cat\x08".data)).length = 2 := by decide
  have hd : ([ "cat\x08" ] : List String).dedup = [ "cat\x08" ] := by decide
  have hc : List.count "cat\x08" ([ "cat\x08" ] : List String) = 1 := by decide
  simp only [calculate_keyword_density, hk, ht, hd, hc]
  norm_num

/-- Witness for C4's third conjunct at a concrete text with three
whitespace tokens compared against itself. -/
theorem calculate_novelty_score_spec_witness :
    calculate_novelty_score ("a b c".data) [ "a b c".data ] 3 = 0 :=
  calculate_novelty_score_spec.2.2 ("a b c".data) (by decide)


/-! Claim C6: totality and range invariants. -/

/-- C6: every analyzer function is total in this embedding and its
numeric results stay in the documented ranges (repetition, complexity,
novelty, sentiment strength, keyword densities and importance in [0,1],
entropy non-negative), and empty input produces the documented defaults.
Every division in the source is guarded by a positive denominator; the
range facts below are proved from those guards. -/
theorem nlp_scores_in_range (text : List Char) :
    (0 ≤ calculate_repetition_score text ∧ calculate_repetition_score text ≤ 1) ∧
    (0 ≤ calculate_complexity_score text ∧ calculate_complexity_score text ≤ 1) ∧
    (∀ (refs : List (List Char)) (n : Nat),
      0 ≤ calculate_novelty_score text refs n ∧
        calculate_novelty_score text refs n ≤ 1) ∧
    (0 ≤ (analyze_sentiment_basic text).2 ∧ (analyze_sentiment_basic text).2 ≤ 1) ∧
    (∀ (k : String) (v : ℚ),
      (k, v) ∈ calculate_keyword_density text → 0 ≤ v ∧ v ≤ 1) ∧
    0 ≤ calculate_entropy text ∧
    (∀ (lw cw nw sw ew : ℝ) (refs : Option (List (List Char))),
      0 ≤ (calculate_enhanced_importance text lw cw nw sw ew refs).1 ∧
        (calculate_enhanced_importance text lw cw nw sw ew refs).1 ≤ 1) ∧
    (calculate_repetition_score [] = 0 ∧ calculate_entropy [] = 0 ∧
      calculate_complexity_score [] = 0 ∧ extract_keywords [] 3 = [] ∧
      calculate_keyword_density [] = [] ∧
      (∀ n : Nat, 1 ≤ n → extract_ngrams [] n = []) ∧
      analyze_sentiment_basic [] = ("neutral", 0.5) ∧
      (∀ (lw cw nw sw ew : ℝ) (refs : Option (List (List Char))),
        calculate_enhanced_importance [] lw cw nw sw ew refs = (0, []))) := by
  refine ⟨?_, ?_, ?_, ?_, ?_, ?_, ?_, ?_⟩
  · unfold calculate_repetition_score
    by_cases h : (pySplit (lowerStr text)).length ≤ 1
    · simp [h]
    · simp only [if_neg h]
      constructor
      · refine le_min ?_ zero_le_one
        rw [sub_nonneg]
        refine div_le_one_of_le₀ ?_ (Nat.cast_nonneg _)
        exact_mod_cast (List.dedup_sublist _).length_le
      · exact min_le_right _ _
  · unfold calculate_complexity_score
    by_cases h : text = []
    · simp [h]
    · simp only [if_neg h]
      refine ⟨le_min ?_ zero_le_one, min_le_right _ _⟩
      have h1 : (0 : ℚ) ≤ (if ¬ (pySplit text).isEmpty then
          (((pySplit text).map String.length).sum : ℚ) / (pySplit text).length
          else 0) := by
        split
        · exact div_nonneg (Nat.cast_nonneg _) (Nat.cast_nonneg _)
        · exact le_refl 0
      have h2 : (0 : ℚ) ≤ (if ¬ (pySplitDot text).isEmpty then
          ((pySplit text).length : ℚ) / (pySplitDot text).length
          else 0) := by
        split
        · exact div_nonneg (Nat.cast_nonneg _) (Nat.cast_nonneg _)
        · exact le_refl 0
      have h3 : (0 : ℚ) ≤ (if ¬ (pySplit text).isEmpty then
          ((pySplit text).dedup.length : ℚ) / (pySplit text).length
          else 0) := by
        split
        · exact div_nonneg (Nat.cast_nonneg _) (Nat.cast_nonneg _)
        · exact le_refl 0
      have h4 : (0 : ℚ) ≤ min ((if ¬ (pySplit text).isEmpty then
          (((pySplit text).map String.length).sum : ℚ) / (pySplit text).length
          else 0) / 10) 1 :=
        le_min (div_nonneg h1 (by norm_num)) zero_le_one
      have h5 : (0 : ℚ) ≤ min ((if ¬ (pySplitDot text).isEmpty then
          ((pySplit text).length : ℚ) / (pySplitDot text).length
          else 0) / 20) 1 :=
        le_min (div_nonneg h2 (by norm_num)) zero_le_one
      have h6 : (0 : ℚ) ≤ (0.3 : ℚ) := by norm_num
      have h7 : (0 : ℚ) ≤ (0.4 : ℚ) := by norm_num
      have := add_nonneg (add_nonneg (mul_nonneg h4 h6) (mul_nonneg h5 h7))
        (mul_nonneg h3 h6)
      exact this
  · intro refs n
    simp only [calculate_novelty_score]
    by_cases h : refs = []
    · simp [h]
    · simp only [if_neg h]
      by_cases hc : (extract_ngrams text n).toFinset = ∅
      · simp only [hc, if_true]
        norm_num
      · simp only [hc, if_false, ne_eq, h, not_false_iff, if_true]
        refine ⟨le_max_left 0 _, ?_⟩
        refine max_le zero_le_one ?_
        rw [sub_le_self_iff]
        refine le_min ?_ zero_le_one
        refine div_nonneg (List.sum_nonneg ?_) (Nat.cast_nonneg _)
        intro q hq
        rcases List.mem_map.mp hq with ⟨r, _, hrq⟩
        subst hrq
        split
        · exact le_refl (0 : ℚ)
        · split
          · exact div_nonneg (Nat.cast_nonneg _) (Nat.cast_nonneg _)
          · exact le_refl (0 : ℚ)
  · simp only [analyze_sentiment_basic]
    by_cases h : ((pySplit (lowerStr text)).toFinset ∩
        positive_words.toFinset).card +
        ((pySplit (lowerStr text)).toFinset ∩ negative_words.toFinset).card = 0
    · rw [if_pos h]
      norm_num
    · rw [if_neg h]
      have hs0 : (0 : ℚ) ≤
          (((pySplit (lowerStr text)).toFinset ∩ positive_words.toFinset).card : ℚ) /
          ((((pySplit (lowerStr text)).toFinset ∩ positive_words.toFinset).card +
            ((pySplit (lowerStr text)).toFinset ∩ negative_words.toFinset).card : ℕ) : ℚ) :=
        div_nonneg (Nat.cast_nonneg _) (Nat.cast_nonneg _)
      have hs1 :
          (((pySplit (lowerStr text)).toFinset ∩ positive_words.toFinset).card : ℚ) /
          ((((pySplit (lowerStr text)).toFinset ∩ positive_words.toFinset).card +
            ((pySplit (lowerStr text)).toFinset ∩ negative_words.toFinset).card : ℕ) : ℚ) ≤ 1 := by
        refine div_le_one_of_le₀ ?_ (Nat.cast_nonneg _)
        exact_mod_cast Nat.le_add_right _ _
      split
      · exact ⟨hs0, hs1⟩
      · split
        · constructor <;> [linarith; linarith]
        · constructor <;> norm_num
  · intro k v hmem
    unfold calculate_keyword_density at hmem
    by_cases htw : (pySplit text).length = 0
    · simp [htw] at hmem
    · simp only [htw, if_false] at hmem
      rcases List.mem_map.mp hmem with ⟨a, ha, hav⟩
      have hv : v = (List.count a (extract_keywords text) : ℚ) /
          ((pySplit text).length : ℚ) := by
        have := congrArg Prod.snd hav
        simpa using this.symm
      have hnodup : (extract_keywords text).Nodup := by
        unfold extract_keywords
        exact List.nodup_dedup _
      have hcle : List.count a (extract_keywords text) ≤ 1 :=
        List.nodup_iff_count_le_one.mp hnodup a
      have hlen1 : 1 ≤ (pySplit text).length := Nat.one_le_iff_ne_zero.mpr htw
      constructor
      · rw [hv]
        exact div_nonneg (Nat.cast_nonneg _) (Nat.cast_nonneg _)
      · rw [hv]
        refine div_le_one_of_le₀ ?_ (Nat.cast_nonneg _)
        exact_mod_cast le_trans hcle hlen1
  · simp only [calculate_entropy]
    by_cases h : text = []
    · simp [h]
    · simp only [if_neg h]
      refine Finset.sum_nonneg ?_
      intro c hc
      split
      · rename_i hp
        have hcle : List.count c (lowerStr text) ≤ text.length := by
          have h1 := List.count_le_length c (lowerStr text)
          have h2 : (lowerStr text).length = text.length := List.length_map _ _
          omega
        have hple : (List.count c (lowerStr text) : ℝ) / (text.length : ℝ) ≤ 1 := by
          refine div_le_one_of_le₀ ?_ (Nat.cast_nonneg _)
          exact_mod_cast hcle
        have hlog : Real.logb 2
            ((List.count c (lowerStr text) : ℝ) / (text.length : ℝ)) ≤ 0 :=
          Real.logb_nonpos one_lt_two (le_of_lt hp) hple
        have hmul : (List.count c (lowerStr text) : ℝ) / (text.length : ℝ) *
            Real.logb 2 ((List.count c (lowerStr text) : ℝ) / (text.length : ℝ)) ≤ 0 :=
          mul_nonpos_iff.mpr (Or.inl ⟨le_of_lt hp, hlog⟩)
        linarith
      · exact le_refl 0
  · intro lw cw nw sw ew refs
    unfold calculate_enhanced_importance
    by_cases h : text = []
    · simp [h]
    · simp only [if_neg h]
      exact ⟨le_max_left 0 _, max_le zero_le_one (min_le_right _ _)⟩
  · refine ⟨rfl, rfl, rfl, rfl, rfl, ?_, rfl, fun lw cw nw sw ew refs => rfl⟩
    intro n hn
    have h0 : pySplit (lowerStr ([] : List Char)) = [] := rfl
    have hlt : 0 < n := hn
    simp only [extract_ngrams, h0, List.length_nil]
    simp [hlt]

/-- Witness for C6 at concrete inputs: a keyword density value produced
by a one-token text, and the empty-input default of `extract_ngrams`. -/
theorem nlp_scores_in_range_witness :
    (0 ≤ (1 : ℚ) ∧ (1 : ℚ) ≤ 1) ∧ extract_ngrams [] 2 = [] := by
  constructor
  · have hk : extract_keywords ("cats\x08".data) = [ "cats\x08" ] := by decide
    have ht : (pySplit ("cats\x08".data)).length = 1 := by decide
    have hd : ([ "cats\x08" ] : List String).dedup = [ "cats\x08" ] := by decide
    have hc : List.count "cats\x08" ([ "cats\x08" ] : List String) = 1 := by
      decide
    have hval : calculate_keyword_density ("cats\x08".data) =
        [ ("cats\x08", (1 : ℚ)) ] := by
      simp only [calculate_keyword_density, hk, ht, hd, hc]
      norm_num
    refine (nlp_scores_in_range ("cats\x08".data)).2.2.2.2.1 "cats\x08" 1 ?_
    rw [hval]
    exact List.mem_singleton.mpr rfl
  · exact (nlp_scores_in_range []).2.2.2.2.2.2.2.2.2.2.2.2.1 2 (by norm_num)


/-! Claim C2: the keyword tokenizer's escape bug. -/

/-- C2: evaluation of `extract_keywords` at the failing input "hello
world".  The claim requires the maximal alphabetic runs {"hello",
"world"}, but the trailing `\b` of the source pattern is written in a
non-raw Python string and denotes a literal backspace character, so a
match needs an actual U+0008 after the letter run and the function
returns the empty list on ordinary text.  The last conjunct exercises
the compiled pattern's real semantics: a letter run followed by an
actual backspace is matched (and the matched token carries the
backspace), while a run preceded by a digit is still rejected by the
leading `\b`, and a run with no following backspace is not matched. -/
theorem extract_keywords_backspace_bug :
    extract_keywords ("hello world".data) 3 = [] ∧
    extract_keywords ("cat cat".data) 3 = [] ∧
    extract_keywords ("abc\x08 5def\x08 ghi".data) 3 = [ "abc\x08" ] := by
  refine ⟨by decide, by decide, by decide⟩
